import Mathlib

/-!
Shallow embedding of the configuration-loading core of the repository
(`config.go`).  The Go program reads a JSON document from disk, decodes it
into a `config` value, validates it declaratively (ozzo-validation), runs
sanity checks, normalizes the download file extension, and processes each
podcast entry in document order (epoch parse, title-filter compile,
short-name uniqueness), failing fast at the first error.

File reading and JSON decoding are I/O and are modelled by the input type
of `loadConfig`: the caller supplies the outcome of the read (outer
`Except`) and of the decode (inner `Except`).  Everything downstream of
the decode is translated directly from the source.

Library functions used by the source are modelled as follows:
* `strings.TrimLeft(s, ".")` — drop the maximal leading run of characters
  belonging to the cutset (`trimLeft`).
* `time.Parse("2006-01-02", s)` — strict 10-character `YYYY-MM-DD` parse
  with month/day range checks, as Go's `Parse` performs (`parseDate`).
  Timestamps are modelled at day granularity (the clock part produced by
  Go is always midnight UTC for this layout); Go's zero `time.Time` is
  January 1 of year 1 (`zeroTimestamp`).
* `regexp.Compile` / `MatchString` — a compiler and Brzozowski-derivative
  matcher for the core of RE2 syntax the program relies on: literals,
  `.`, alternation, concatenation, `*` `+` `?` (with optional non-greedy
  `?`), groups and the case-insensitivity group flag `(?i:...)`.
  Constructs outside this core (character classes, anchors, escape
  classes) are conservatively rejected by the model.
* `ozzo-validation`'s `ValidateStruct` with `Required` on the API key and
  `Length(3, 0)` on the podcast list.  In ozzo-validation every rule
  except `Required`/`NotNil` is skipped when the value being validated is
  empty (`LengthRule.Validate` returns `nil` when `IsEmpty(value)`), so
  the length rule does not fire on an empty podcast slice; this is
  modelled faithfully in `config.Validate`.
* `set.Strings` (poor-mans-generics) — a set of strings with `Contains`
  and `Add`, modelled as a `List String` accumulator.
-/

deriving instance DecidableEq for Except

/-! ### Timestamps and date parsing (`time.Parse("2006-01-02", _)`) -/

structure Timestamp where
  year : Nat
  month : Nat
  day : Nat
deriving DecidableEq, Repr

/-- Go's zero `time.Time`: January 1, year 1 (UTC). -/
def zeroTimestamp : Timestamp := ⟨1, 1, 1⟩

def digitVal (c : Char) : Nat := c.toNat - '0'.toNat

def isLeapYear (y : Nat) : Bool :=
  y % 4 == 0 && (y % 100 != 0 || y % 400 == 0)

/-- Number of days in a month, as Go's `daysIn` used by `time.Parse`. -/
def daysIn (month year : Nat) : Nat :=
  if month == 2 then (if isLeapYear year then 29 else 28)
  else if month == 4 || month == 6 || month == 9 || month == 11 then 30
  else 31

def dateErr (s msg : String) : String :=
  "parsing time \"" ++ s ++ "\": " ++ msg

/-- Go's `time.Parse("2006-01-02", s)`: exactly four year digits, a dash,
two month digits, a dash, two day digits, nothing after; the month must be
in 1..12 and the day in range for the month (leap years included). -/
def parseDate (s : String) : Except String Timestamp :=
  match s.data with
  | [y1, y2, y3, y4, h1, m1, m2, h2, d1, d2] =>
    if y1.isDigit && y2.isDigit && y3.isDigit && y4.isDigit &&
        h1 == '-' && m1.isDigit && m2.isDigit && h2 == '-' &&
        d1.isDigit && d2.isDigit then
      let year := ((digitVal y1 * 10 + digitVal y2) * 10 + digitVal y3) * 10
        + digitVal y4
      let month := digitVal m1 * 10 + digitVal m2
      let day := digitVal d1 * 10 + digitVal d2
      if month < 1 || 12 < month then
        .error (dateErr s "month out of range")
      else if day < 1 || daysIn month year < day then
        .error (dateErr s "day out of range")
      else
        .ok ⟨year, month, day⟩
    else .error (dateErr s "cannot parse")
  | _ => .error (dateErr s "cannot parse")

/-! ### Regular expressions (model of the `regexp` package's core) -/

/-- Regular-expression syntax after compilation.  `litCI c` is a literal
compiled under the `(?i:...)` flag: it stores the lowercased character and
matches any character with that lowercase image. -/
inductive RE : Type where
  | void : RE
  | emp : RE
  | lit : Char → RE
  | litCI : Char → RE
  | anyCh : RE
  | seq : RE → RE → RE
  | alt : RE → RE → RE
  | star : RE → RE
deriving DecidableEq, Repr

/-- Smart concatenation used by the parser so that a trailing empty
concatenation does not wrap the result. -/
def mkSeq (a b : RE) : RE :=
  match b with
  | .emp => a
  | _ => .seq a b

def mkLit (ci : Bool) (c : Char) : RE :=
  if ci then .litCI c.toLower else .lit c

def fuelErr : String := "expression too complex for model"

/-- After a repetition operator: an immediately following `?` selects the
non-greedy variant (same language); a second repetition operator is the
`invalid nested repetition operator` error. -/
def closeRep (r : RE) (rest : List Char) : Except String (RE × List Char) :=
  match rest with
  | '?' :: rest2 =>
    match rest2 with
    | '*' :: _ => .error "invalid nested repetition operator"
    | '+' :: _ => .error "invalid nested repetition operator"
    | '?' :: _ => .error "invalid nested repetition operator"
    | _ => .ok (r, rest2)
  | '*' :: _ => .error "invalid nested repetition operator"
  | '+' :: _ => .error "invalid nested repetition operator"
  | _ => .ok (r, rest)

mutual

/-- Alternation level: concatenations separated by `|`. -/
def parseAlt (fuel : Nat) (ci : Bool) (s : List Char) :
    Except String (RE × List Char) :=
  match fuel with
  | 0 => .error fuelErr
  | fuel + 1 =>
    match parseSeq fuel ci s with
    | .error e => .error e
    | .ok (r, rest) =>
      match rest with
      | '|' :: rest2 =>
        match parseAlt fuel ci rest2 with
        | .error e => .error e
        | .ok (r2, rest3) => .ok (.alt r r2, rest3)
      | _ => .ok (r, rest)

/-- Concatenation level: a run of repeated atoms, ending at `|`, `)` or
the end of the input. -/
def parseSeq (fuel : Nat) (ci : Bool) (s : List Char) :
    Except String (RE × List Char) :=
  match fuel with
  | 0 => .error fuelErr
  | fuel + 1 =>
    match s with
    | [] => .ok (.emp, [])
    | ')' :: _ => .ok (.emp, s)
    | '|' :: _ => .ok (.emp, s)
    | _ =>
      match parseRep fuel ci s with
      | .error e => .error e
      | .ok (r, rest) =>
        match parseSeq fuel ci rest with
        | .error e => .error e
        | .ok (r2, rest2) => .ok (mkSeq r r2, rest2)

/-- Repetition level: an atom followed by optional `*`, `+` or `?`. -/
def parseRep (fuel : Nat) (ci : Bool) (s : List Char) :
    Except String (RE × List Char) :=
  match fuel with
  | 0 => .error fuelErr
  | fuel + 1 =>
    match parseAtom fuel ci s with
    | .error e => .error e
    | .ok (r, rest) =>
      match rest with
      | '*' :: rest2 => closeRep (.star r) rest2
      | '+' :: rest2 => closeRep (.seq r (.star r)) rest2
      | '?' :: rest2 => closeRep (.alt r .emp) rest2
      | _ => .ok (r, rest)

/-- Atom level: a literal, `.`, an escape, or a group (plain or with the
`?i:` case-insensitivity flag). -/
def parseAtom (fuel : Nat) (ci : Bool) (s : List Char) :
    Except String (RE × List Char) :=
  match fuel with
  | 0 => .error fuelErr
  | fuel + 1 =>
    match s with
    | [] => .error "missing operand"
    | '(' :: '?' :: 'i' :: ':' :: rest =>
      match parseAlt fuel true rest with
      | .error e => .error e
      | .ok (r, ')' :: rest2) => .ok (r, rest2)
      | .ok (_, _) => .error "missing closing )"
    | '(' :: '?' :: _ => .error "group flags unsupported in model"
    | '(' :: rest =>
      match parseAlt fuel ci rest with
      | .error e => .error e
      | .ok (r, ')' :: rest2) => .ok (r, rest2)
      | .ok (_, _) => .error "missing closing )"
    | ')' :: _ => .error "unexpected )"
    | '|' :: _ => .error "unexpected |"
    | '*' :: _ => .error "missing argument to repetition operator"
    | '+' :: _ => .error "missing argument to repetition operator"
    | '?' :: _ => .error "missing argument to repetition operator"
    | '[' :: _ => .error "character classes unsupported in model"
    | '^' :: _ => .error "anchors unsupported in model"
    | '$' :: _ => .error "anchors unsupported in model"
    | '\\' :: c :: rest =>
      if c.isAlphanum then .error "escape classes unsupported in model"
      else .ok (mkLit ci c, rest)
    | '\\' :: [] => .error "trailing backslash at end of expression"
    | '.' :: rest => .ok (.anyCh, rest)
    | c :: rest => .ok (mkLit ci c, rest)

end

/-- `regexp.Compile`: parse the whole pattern; leftover input means a
stray `)`. -/
def compileRE (pat : String) : Except String RE :=
  match parseAlt (4 * pat.length + 8) false pat.data with
  | .error e => .error e
  | .ok (r, []) => .ok r
  | .ok (_, _ :: _) => .error "unexpected )"

def RE.nullable : RE → Bool
  | .void => false
  | .emp => true
  | .lit _ => false
  | .litCI _ => false
  | .anyCh => false
  | .seq a b => a.nullable && b.nullable
  | .alt a b => a.nullable || b.nullable
  | .star _ => true

/-- Brzozowski derivative. -/
def RE.deriv : RE → Char → RE
  | .void, _ => .void
  | .emp, _ => .void
  | .lit c, x => if x == c then .emp else .void
  | .litCI c, x => if x.toLower == c then .emp else .void
  | .anyCh, _ => .emp
  | .seq a b, x =>
    if a.nullable then .alt (.seq (a.deriv x) b) (b.deriv x)
    else .seq (a.deriv x) b
  | .alt a b, x => .alt (a.deriv x) (b.deriv x)
  | .star a, x => .seq (a.deriv x) (.star a)

/-- Does some prefix of the character list match `r`? -/
def matchPre (r : RE) : List Char → Bool
  | [] => r.nullable
  | c :: rest => r.nullable || matchPre (r.deriv c) rest

def searchFrom (r : RE) : List Char → Bool
  | [] => r.nullable
  | c :: rest => matchPre r (c :: rest) || searchFrom r rest

/-- `Regexp.MatchString`: does the pattern match anywhere in the string? -/
def RE.matchString (r : RE) (s : String) : Bool :=
  searchFrom r s.data

/-! ### Other library helpers -/

/-- `strings.TrimLeft`: remove the maximal leading run of characters that
belong to the cutset. -/
def trimLeft (s cutset : String) : String :=
  String.mk (s.data.dropWhile (fun c => cutset.data.contains c))

def exceptToOption {ε α : Type} : Except ε α → Option α
  | .ok a => some a
  | .error _ => none

/-! ### The data model (`config.go`) -/

structure watcherConfig where
  CheckIntervalMinutes : Int
  YTDLFmtSelector : String
  YTDLWriteExt : String
  ServeHost : String
  ServePort : Int
  ServeDirectoryListings : Bool
deriving DecidableEq, Repr

/-- `urlFor` (config.go:43-49): `http://{host}{portPart}/{path}` where
`portPart` is `:{port}` unless the port is 80. -/
def watcherConfig.urlFor (wc : watcherConfig) (filePath : String) : String :=
  let portPart : String :=
    if wc.ServePort ≠ 80 then ":" ++ toString wc.ServePort else ""
  "http://" ++ wc.ServeHost ++ portPart ++ "/" ++ filePath

structure podcast where
  YTChannel : String
  YTChannelID : String
  YTChannelReadableName : String
  Name : String
  ShortName : String
  Description : String
  TitleFilterStr : String
  TitleFilter : Option RE
  EpochStr : String
  Epoch : Timestamp
  Vidya : Bool
  CustomImagePath : String
deriving DecidableEq, Repr

structure config where
  YTDataAPIKey : String
  watcherConfig : watcherConfig
  Podcasts : List podcast
deriving DecidableEq, Repr

/-- Fields that the declarative validator (`config.Validate`,
config.go:23-27) can report. -/
inductive VField : Type where
  | apiKey : VField
  | podcasts : VField
deriving DecidableEq, Repr

/-- `config.Validate` (config.go:23-27): `Required` on the API key and
`Length(3, 0)` on the podcast list, collecting every violated field.  As
in ozzo-validation, the length rule is skipped when the value is empty,
so an empty podcast list does not violate it.  The result is the list of
violated fields; the validation succeeds iff it is empty. -/
def config.Validate (c : config) : List VField :=
  (if c.YTDataAPIKey = "" then [VField.apiKey] else []) ++
    (if c.Podcasts ≠ [] ∧ c.Podcasts.length < 3 then [VField.podcasts] else [])

/-! ### Errors and loadConfig -/

/-- Modelled from the spec: the command name of the external
media-download tool, a constant defined outside the visible source and
used only inside sanity-check error messages. -/
def downloadCmdName : String := "youtube-dl"

inductive LoadError : Type where
  | storage : String → LoadError
  | decode : String → LoadError
  | validation : List VField → LoadError
  | sanity : String → LoadError
  | epochParse : String → LoadError
  | titleFilterCompile : String → LoadError
  | duplicateShortName : String → LoadError
deriving DecidableEq, Repr

/-- The wrapping applied before compiling a title filter
(config.go:136-138): `fmt.Sprintf("(?i:%s)", pat)`. -/
def wrapCI (pat : String) : String := "(?i:" ++ pat ++ ")"

/-- Epoch parsing for one entry (config.go:124-133): an empty string
yields Go's zero time, otherwise the strict date parse runs. -/
def parseEpochField (es : String) : Except String Timestamp :=
  if es = "" then .ok zeroTimestamp else parseDate es

/-- The per-entry loop of `loadConfig` (config.go:122-152): parse the
epoch, compile the wrapped title filter, check the short name against the
set of names seen so far, then continue.  The Go loop mutates entries in
place and aborts with a nil config on error, so only the fully processed
list is observable; the model rebuilds it. -/
def processPodcasts : List podcast → List String → Except LoadError (List podcast)
  | [], _ => .ok []
  | p :: rest, seen =>
    match parseEpochField p.EpochStr with
    | .error e => .error (.epochParse e)
    | .ok t =>
      match compileRE (wrapCI p.TitleFilterStr) with
      | .error e => .error (.titleFilterCompile e)
      | .ok re =>
        if p.ShortName ∈ seen then
          .error (.duplicateShortName p.ShortName)
        else
          match processPodcasts rest (p.ShortName :: seen) with
          | .error e => .error e
          | .ok rest2 =>
            .ok ({ p with Epoch := t, TitleFilter := some re } :: rest2)

/-- `loadConfig` (config.go:86-155).  The input models the outcome of the
file read (outer `Except`) and of the JSON decode (inner `Except`); the
result mirrors Go's `(*config, error)` pair: `(some c, none)` on success,
`(none, some e)` on failure. -/
def loadConfig (input : Except String (Except String config)) :
    Option config × Option LoadError :=
  match input with
  | .error e => (none, some (.storage e))
  | .ok (.error e) => (none, some (.decode e))
  | .ok (.ok c0) =>
    match c0.Validate with
    | f :: fs => (none, some (.validation (f :: fs)))
    | [] =>
      if c0.watcherConfig.CheckIntervalMinutes < 1 then
        (none, some (.sanity "check interval must be >= 1 minutes"))
      else if c0.watcherConfig.YTDLFmtSelector = "" then
        (none, some (.sanity ("missing " ++ downloadCmdName ++ " format selector")))
      else if c0.watcherConfig.YTDLWriteExt = "" then
        (none, some (.sanity ("missing " ++ downloadCmdName ++ " file type extension")))
      else if c0.watcherConfig.ServeHost = "" then
        (none, some (.sanity "missing host to webserve on"))
      else if c0.watcherConfig.ServePort = 0 then
        (none, some (.sanity "missing fixed port to webserve on"))
      else
        let c1 : config :=
          { c0 with watcherConfig :=
              { c0.watcherConfig with
                  YTDLWriteExt := trimLeft c0.watcherConfig.YTDLWriteExt "." } }
        match processPodcasts c1.Podcasts [] with
        | .error e => (none, some e)
        | .ok ps => (some { c1 with Podcasts := ps }, none)

/-! ### Concrete documents used to exercise the model -/

/-- A feed entry as produced by the decoder: runtime-only fields hold
their zero values (nil compiled filter, zero time). -/
def mkPod (sn tf es : String) : podcast :=
  { YTChannel := "chan", YTChannelID := "", YTChannelReadableName := "",
    Name := "name", ShortName := sn, Description := "desc",
    TitleFilterStr := tf, TitleFilter := none,
    EpochStr := es, Epoch := zeroTimestamp,
    Vidya := false, CustomImagePath := "" }

def baseWatch : watcherConfig :=
  { CheckIntervalMinutes := 15, YTDLFmtSelector := "bestaudio",
    YTDLWriteExt := ".m4a", ServeHost := "host", ServePort := 8080,
    ServeDirectoryListings := false }

/-- A fully valid document: three feeds with distinct short names. -/
def cfgOK : config :=
  { YTDataAPIKey := "k", watcherConfig := baseWatch,
    Podcasts :=
      [mkPod "a" "cat" "2020-01-15", mkPod "b" "" "", mkPod "c" "" ""] }

/-- Valid except that the raw download extension is a bare dot. -/
def cfgDot3 : config :=
  { cfgOK with watcherConfig := { baseWatch with YTDLWriteExt := "." } }

/-- Valid fields but an empty feed list. -/
def cfgZero : config :=
  { YTDataAPIKey := "k", watcherConfig := baseWatch, Podcasts := [] }

/-- Two feeds only, and a check interval that would also fail the sanity
check if it were reached. -/
def cfgTwo : config :=
  { YTDataAPIKey := "k",
    watcherConfig := { baseWatch with CheckIntervalMinutes := 0 },
    Podcasts := [mkPod "a" "" "", mkPod "b" "" ""] }

/-- Two feeds share the short name "foo"; the entry after the collision
has an invalid pattern and an invalid date. -/
def cfgDup : config :=
  { YTDataAPIKey := "k", watcherConfig := baseWatch,
    Podcasts :=
      [mkPod "foo" "" "", mkPod "foo" "" "", mkPod "x" "(" "9999-99-99"] }

/-- The second feed's title filter does not compile. -/
def cfgBadPat : config :=
  { YTDataAPIKey := "k", watcherConfig := baseWatch,
    Podcasts := [mkPod "a" "" "", mkPod "b" "(" "", mkPod "c" "" ""] }

/-- The second feed's epoch string is not a well-formed date. -/
def cfgBadDate : config :=
  { YTDataAPIKey := "k", watcherConfig := baseWatch,
    Podcasts := [mkPod "a" "" "", mkPod "b" "" "2020-13-01", mkPod "c" "(" ""] }

/-- Valid document whose first feed has an empty short name. -/
def cfgEmptySN : config :=
  { YTDataAPIKey := "k", watcherConfig := baseWatch,
    Podcasts := [mkPod "" "" "", mkPod "a" "" "", mkPod "b" "" ""] }

/-! ### Derived notions used in the statements -/

def exceptIsOk {ε α : Type} : Except ε α → Bool
  | .ok _ => true
  | .error _ => false

/-- Both per-entry parses of an entry succeed (epoch and wrapped title
filter). -/
abbrev entryOk (p : podcast) : Prop :=
  exceptIsOk (parseEpochField p.EpochStr) = true ∧
    exceptIsOk (compileRE (wrapCI p.TitleFilterStr)) = true

/-- The value an entry holds after the per-entry loop has processed it
(meaningful when `entryOk` holds). -/
def normalizePodcast (p : podcast) : podcast :=
  { p with
    Epoch := (exceptToOption (parseEpochField p.EpochStr)).getD zeroTimestamp,
    TitleFilter := exceptToOption (compileRE (wrapCI p.TitleFilterStr)) }

/-- The invariants of spec section 3 on a loaded configuration: non-empty
credential, at least three feeds, the watch-policy bounds, every title
filter compiled from its wrapped pattern, every non-empty epoch string
parseable, and pairwise-distinct short names. -/
abbrev configInvariants (c : config) : Prop :=
  c.YTDataAPIKey ≠ "" ∧
  3 ≤ c.Podcasts.length ∧
  1 ≤ c.watcherConfig.CheckIntervalMinutes ∧
  c.watcherConfig.YTDLFmtSelector ≠ "" ∧
  c.watcherConfig.YTDLWriteExt ≠ "" ∧
  c.watcherConfig.ServeHost ≠ "" ∧
  c.watcherConfig.ServePort ≠ 0 ∧
  (∀ p ∈ c.Podcasts,
    exceptToOption (compileRE (wrapCI p.TitleFilterStr)) = p.TitleFilter ∧
      p.TitleFilter ≠ none) ∧
  (∀ p ∈ c.Podcasts, p.EpochStr ≠ "" → exceptIsOk (parseDate p.EpochStr) = true) ∧
  (c.Podcasts.map podcast.ShortName).Nodup

/-- What `cfgOK` loads to. -/
def loadedOK : config :=
  { cfgOK with
    watcherConfig := { baseWatch with YTDLWriteExt := "m4a" },
    Podcasts := cfgOK.Podcasts.map normalizePodcast }

/-! ### Basic lemmas -/

theorem exceptIsOk_iff {ε α : Type} (e : Except ε α) :
    exceptIsOk e = true ↔ ∃ a, e = .ok a := by
  cases e <;> simp [exceptIsOk]

theorem normalizePodcast_ShortName (p : podcast) :
    (normalizePodcast p).ShortName = p.ShortName := rfl

theorem dropWhile_head_not {α : Type} (q : α → Bool) (l : List α) (a : α)
    (h : (l.dropWhile q).head? = some a) : q a = false := by
  induction l with
  | nil => simp [List.dropWhile] at h
  | cons c rest ih =>
    rw [List.dropWhile_cons] at h
    by_cases hc : q c
    · simp [hc] at h
      exact ih h
    · simp [hc] at h
      subst h
      simpa using hc

theorem trimLeft_no_leading (s cutset : String) (a : Char)
    (h : (trimLeft s cutset).data.head? = some a) :
    cutset.data.contains a = false :=
  dropWhile_head_not _ _ _ h

theorem trimLeft_decomp (s cutset : String) :
    ∃ t, s.data = t ++ (trimLeft s cutset).data ∧
      ∀ a ∈ t, cutset.data.contains a = true := by
  refine ⟨s.data.takeWhile (fun c => cutset.data.contains c), ?_, ?_⟩
  · exact (List.takeWhile_append_dropWhile _ _).symm
  · intro a ha
    exact List.mem_takeWhile_imp ha

/-- Processing a list that starts with entries that all normalize, with
pairwise-distinct short names not yet seen, runs through them and
continues on the remainder with the enlarged seen-set. -/
theorem processPodcasts_append (pre rest : List podcast) (seen : List String)
    (hok : ∀ p ∈ pre, entryOk p)
    (hnodup : (pre.map podcast.ShortName).Nodup)
    (hseen : ∀ p ∈ pre, p.ShortName ∉ seen) :
    processPodcasts (pre ++ rest) seen =
      (processPodcasts rest ((pre.map podcast.ShortName).reverse ++ seen)).map
        (fun l => pre.map normalizePodcast ++ l) := by
  induction pre generalizing seen with
  | nil =>
    simp only [List.nil_append, List.map_nil, List.reverse_nil]
    cases processPodcasts rest seen <;> simp [Except.map]
  | cons p pre2 ih =>
    have hp : entryOk p := hok p (by simp)
    obtain ⟨t, ht⟩ := (exceptIsOk_iff _).1 hp.1
    obtain ⟨re, hre⟩ := (exceptIsOk_iff _).1 hp.2
    have hpseen : p.ShortName ∉ seen := hseen p (by simp)
    rw [List.map_cons, List.nodup_cons] at hnodup
    have hnotin : p.ShortName ∉ pre2.map podcast.ShortName := hnodup.1
    have hok2 : ∀ q ∈ pre2, entryOk q := fun q hq => hok q (by simp [hq])
    have hseen2 : ∀ q ∈ pre2, q.ShortName ∉ p.ShortName :: seen := by
      intro q hq
      simp only [List.mem_cons, not_or]
      refine ⟨?_, hseen q (by simp [hq])⟩
      intro hqp
      exact hnotin (hqp ▸ List.mem_map_of_mem podcast.ShortName hq)
    have hnormp : normalizePodcast p = { p with Epoch := t, TitleFilter := some re } := by
      simp [normalizePodcast, ht, hre, exceptToOption]
    have step : processPodcasts ((p :: pre2) ++ rest) seen =
        match processPodcasts (pre2 ++ rest) (p.ShortName :: seen) with
        | .error e => .error e
        | .ok rest2 => .ok ({ p with Epoch := t, TitleFilter := some re } :: rest2) := by
      simp only [List.cons_append, processPodcasts, ht, hre, if_neg hpseen]
      rfl
    rw [step, ih (p.ShortName :: seen) hok2 hnodup.2 hseen2, ← hnormp]
    simp only [List.map_cons, List.reverse_cons, List.append_assoc,
      List.singleton_append]
    cases processPodcasts rest
        ((pre2.map podcast.ShortName).reverse ++ p.ShortName :: seen) with
    | error e => simp [Except.map]
    | ok l => simp [Except.map]

/-- Inversion of a successful per-entry pass: the output is the entrywise
normalization, every entry normalized, and the short names are pairwise
distinct and disjoint from the initial seen-set. -/
theorem processPodcasts_ok_inv (l : List podcast) (seen : List String)
    (l2 : List podcast) (h : processPodcasts l seen = .ok l2) :
    l2 = l.map normalizePodcast ∧ (∀ p ∈ l, entryOk p) ∧
      (l.map podcast.ShortName).Nodup ∧ ∀ p ∈ l, p.ShortName ∉ seen := by
  induction l generalizing seen l2 with
  | nil =>
    simp only [processPodcasts] at h
    cases h
    simp
  | cons p rest ih =>
    cases ht : parseEpochField p.EpochStr with
    | error e => simp [processPodcasts, ht] at h
    | ok t =>
      cases hre : compileRE (wrapCI p.TitleFilterStr) with
      | error e => simp [processPodcasts, ht, hre] at h
      | ok re =>
        by_cases hin : p.ShortName ∈ seen
        · simp [processPodcasts, ht, hre, hin] at h
        · cases hrec : processPodcasts rest (p.ShortName :: seen) with
          | error e => simp [processPodcasts, ht, hre, hin, hrec] at h
          | ok rest2 =>
            have h2 : l2 = { p with Epoch := t, TitleFilter := some re } :: rest2 := by
              simp [processPodcasts, ht, hre, hin, hrec] at h
              exact h.symm
            have hnormp : normalizePodcast p =
                { p with Epoch := t, TitleFilter := some re } := by
              simp [normalizePodcast, ht, hre, exceptToOption]
            obtain ⟨hr1, hr2, hr3, hr4⟩ := ih (p.ShortName :: seen) rest2 hrec
            refine ⟨?_, ?_, ?_, ?_⟩
            · rw [h2, List.map_cons, hnormp, hr1]
            · intro q hq
              rcases List.mem_cons.1 hq with hq | hq
              · subst hq
                exact ⟨by simp [ht, exceptIsOk], by simp [hre, exceptIsOk]⟩
              · exact hr2 q hq
            · rw [List.map_cons, List.nodup_cons]
              refine ⟨?_, hr3⟩
              intro hmem
              obtain ⟨q, hq, hqsn⟩ := List.mem_map.1 hmem
              have := hr4 q hq
              simp [hqsn] at this
            · intro q hq
              rcases List.mem_cons.1 hq with hq | hq
              · subst hq
                exact hin
              · have := hr4 q hq
                simp only [List.mem_cons, not_or] at this
                exact this.2

/-- Running `loadConfig` on a document that passes validation and the
sanity checks, split as processed prefix plus remainder: the outcome is
decided by processing the remainder under the prefix's short names. -/
theorem loadConfig_at_entry (c0 : config) (pre rest : List podcast)
    (hsplit : c0.Podcasts = pre ++ rest)
    (hv : c0.Validate = [])
    (h3 : 1 ≤ c0.watcherConfig.CheckIntervalMinutes)
    (h4 : c0.watcherConfig.YTDLFmtSelector ≠ "")
    (h5 : c0.watcherConfig.YTDLWriteExt ≠ "")
    (h6 : c0.watcherConfig.ServeHost ≠ "")
    (h7 : c0.watcherConfig.ServePort ≠ 0)
    (hok : ∀ p ∈ pre, entryOk p)
    (hnodup : (pre.map podcast.ShortName).Nodup) :
    loadConfig (.ok (.ok c0)) =
      match processPodcasts rest (pre.map podcast.ShortName).reverse with
      | .error e => (none, some e)
      | .ok l =>
        (some { c0 with
            watcherConfig := { c0.watcherConfig with
              YTDLWriteExt := trimLeft c0.watcherConfig.YTDLWriteExt "." },
            Podcasts := pre.map normalizePodcast ++ l }, none) := by
  have hlt : ¬ c0.watcherConfig.CheckIntervalMinutes < 1 := not_lt.2 h3
  simp only [loadConfig, hv, if_neg hlt, if_neg h4, if_neg h5, if_neg h6, if_neg h7]
  have hpods :
      ({ c0 with watcherConfig := { c0.watcherConfig with
          YTDLWriteExt := trimLeft c0.watcherConfig.YTDLWriteExt "." } } :
        config).Podcasts = pre ++ rest := hsplit
  rw [hpods,
    processPodcasts_append pre rest [] hok hnodup (by simp), List.append_nil]
  cases processPodcasts rest (pre.map podcast.ShortName).reverse with
  | error e => simp [Except.map]
  | ok l => simp [Except.map]

/-- Inversion of a successful load: the input decoded into a document
that passed validation and every sanity check, every entry normalized
with pairwise-distinct short names, and the result is the document with
the extension trimmed and the entries normalized. -/
theorem loadConfig_ok_inv (input : Except String (Except String config))
    (c : config) (h : loadConfig input = (some c, none)) :
    ∃ c0, input = .ok (.ok c0) ∧
      c0.Validate = [] ∧
      1 ≤ c0.watcherConfig.CheckIntervalMinutes ∧
      c0.watcherConfig.YTDLFmtSelector ≠ "" ∧
      c0.watcherConfig.YTDLWriteExt ≠ "" ∧
      c0.watcherConfig.ServeHost ≠ "" ∧
      c0.watcherConfig.ServePort ≠ 0 ∧
      (∀ p ∈ c0.Podcasts, entryOk p) ∧
      (c0.Podcasts.map podcast.ShortName).Nodup ∧
      c = { c0 with
        watcherConfig := { c0.watcherConfig with
          YTDLWriteExt := trimLeft c0.watcherConfig.YTDLWriteExt "." },
        Podcasts := c0.Podcasts.map normalizePodcast } := by
  match input with
  | .error e => simp [loadConfig] at h
  | .ok (.error e) => simp [loadConfig] at h
  | .ok (.ok c0) =>
    refine ⟨c0, rfl, ?_⟩
    cases hv : c0.Validate with
    | cons f fs => simp [loadConfig, hv] at h
    | nil =>
      simp only [loadConfig, hv] at h
      by_cases h3 : c0.watcherConfig.CheckIntervalMinutes < 1
      · rw [if_pos h3] at h
        simp at h
      rw [if_neg h3] at h
      by_cases h4 : c0.watcherConfig.YTDLFmtSelector = ""
      · rw [if_pos h4] at h
        simp at h
      rw [if_neg h4] at h
      by_cases h5 : c0.watcherConfig.YTDLWriteExt = ""
      · rw [if_pos h5] at h
        simp at h
      rw [if_neg h5] at h
      by_cases h6 : c0.watcherConfig.ServeHost = ""
      · rw [if_pos h6] at h
        simp at h
      rw [if_neg h6] at h
      by_cases h7 : c0.watcherConfig.ServePort = 0
      · rw [if_pos h7] at h
        simp at h
      rw [if_neg h7] at h
      cases hps : processPodcasts c0.Podcasts [] with
      | error e =>
        rw [show ({ c0 with watcherConfig := { c0.watcherConfig with
            YTDLWriteExt := trimLeft c0.watcherConfig.YTDLWriteExt "." } } :
          config).Podcasts = c0.Podcasts from rfl, hps] at h
        simp at h
      | ok ps =>
        rw [show ({ c0 with watcherConfig := { c0.watcherConfig with
            YTDLWriteExt := trimLeft c0.watcherConfig.YTDLWriteExt "." } } :
          config).Podcasts = c0.Podcasts from rfl, hps] at h
        simp only [Prod.mk.injEq, Option.some.injEq] at h
        obtain ⟨hc, -⟩ := h
        obtain ⟨hps1, hps2, hps3, -⟩ := processPodcasts_ok_inv _ _ _ hps
        exact ⟨rfl, not_lt.1 h3, h4, h5, h6, h7, hps2, hps3, by rw [← hc, hps1]⟩

/-! ### Claim theorems -/

/-- C3: `urlFor` is a pure function of the watch policy: for every policy
and relative path it returns exactly
`"http://" ++ host ++ portPart ++ "/" ++ path`, where `portPart` is empty
iff the port equals 80 and is `":" ++ port` rendered in decimal otherwise;
with host `"host"` the path `"x.xml"` yields `"http://host/x.xml"` at
port 80 and `"http://host:8080/x.xml"` at port 8080. -/
theorem urlFor_correct (wc : watcherConfig) (fp : String) :
    wc.urlFor fp =
      "http://" ++ wc.ServeHost ++
        (if wc.ServePort = 80 then "" else ":" ++ toString wc.ServePort) ++
        "/" ++ fp ∧
    ((if wc.ServePort = 80 then "" else ":" ++ toString wc.ServePort) = "" ↔
      wc.ServePort = 80) ∧
    ({ baseWatch with ServePort := 80 } : watcherConfig).urlFor "x.xml" =
      "http://host/x.xml" ∧
    baseWatch.urlFor "x.xml" = "http://host:8080/x.xml" := by
  refine ⟨?_, ?_, by decide, by decide⟩
  · unfold watcherConfig.urlFor
    by_cases hp : wc.ServePort = 80 <;> simp [hp]
  · by_cases hp : wc.ServePort = 80
    · simp [hp]
    · simp only [if_neg hp]
      constructor
      · intro hemp
        exfalso
        have := congrArg String.data hemp
        simp [String.data_append] at this
      · intro h80
        exact absurd h80 hp

/-- C8: every run of `loadConfig` ends in exactly one of the two shapes
of the Go return pair: a configuration with a nil error, or a nil
configuration with an error; no partial result exists. -/
theorem loadConfig_exclusive_outcome (input : Except String (Except String config)) :
    (∃ c, loadConfig input = (some c, none)) ∨
      (∃ e, loadConfig input = (none, some e)) := by
  match input with
  | .error e => exact .inr ⟨_, rfl⟩
  | .ok (.error e) => exact .inr ⟨_, rfl⟩
  | .ok (.ok c0) =>
    cases hv : c0.Validate with
    | cons f fs =>
      exact .inr ⟨.validation (f :: fs), by simp [loadConfig, hv]⟩
    | nil =>
      by_cases h3 : c0.watcherConfig.CheckIntervalMinutes < 1
      · exact .inr ⟨.sanity "check interval must be >= 1 minutes",
          by simp [loadConfig, hv, h3]⟩
      by_cases h4 : c0.watcherConfig.YTDLFmtSelector = ""
      · exact .inr ⟨.sanity ("missing " ++ downloadCmdName ++ " format selector"),
          by simp [loadConfig, hv, h3, h4]⟩
      by_cases h5 : c0.watcherConfig.YTDLWriteExt = ""
      · exact .inr ⟨.sanity ("missing " ++ downloadCmdName ++ " file type extension"),
          by simp [loadConfig, hv, h3, h4, h5]⟩
      by_cases h6 : c0.watcherConfig.ServeHost = ""
      · exact .inr ⟨.sanity "missing host to webserve on",
          by simp [loadConfig, hv, h3, h4, h5, h6]⟩
      by_cases h7 : c0.watcherConfig.ServePort = 0
      · exact .inr ⟨.sanity "missing fixed port to webserve on",
          by simp [loadConfig, hv, h3, h4, h5, h6, h7]⟩
      rw [loadConfig_at_entry c0 [] c0.Podcasts (by simp) hv (not_lt.1 h3)
        h4 h5 h6 h7 (by simp) (by simp)]
      simp only [List.map_nil, List.reverse_nil]
      cases processPodcasts c0.Podcasts [] with
      | error e => exact .inr ⟨e, rfl⟩
      | ok l => exact .inl ⟨_, rfl⟩

/-- C2 (amended): on every successful load the watch-policy invariants
hold with one exception: the check interval is at least 1, the format
selector and serve host are non-empty and the serve port is nonzero, and
the normalized download file extension never starts with a dot — but it
can be empty (exactly when the raw extension consisted only of dots,
because the source checks non-emptiness before stripping the dots). -/
theorem loadConfig_watch_policy (input : Except String (Except String config))
    (c : config) (h : loadConfig input = (some c, none)) :
    1 ≤ c.watcherConfig.CheckIntervalMinutes ∧
    c.watcherConfig.YTDLFmtSelector ≠ "" ∧
    c.watcherConfig.ServeHost ≠ "" ∧
    c.watcherConfig.ServePort ≠ 0 ∧
    c.watcherConfig.YTDLWriteExt.data.head? ≠ some '.' := by
  obtain ⟨c0, -, -, h3, h4, -, h6, h7, -, -, hc⟩ := loadConfig_ok_inv input c h
  subst hc
  refine ⟨h3, h4, h6, h7, ?_⟩
  intro hhead
  exact absurd
    (trimLeft_no_leading c0.watcherConfig.YTDLWriteExt "." '.' hhead)
    (by decide)

/-- C2 counterexample: the document `cfgDot3`, whose raw extension is the
single character ".", loads successfully, yet the loaded configuration's
download file extension is the empty string — the non-emptiness invariant
claimed for every successfully loaded configuration fails. -/
theorem loadConfig_watch_policy_counterexample :
    (loadConfig (.ok (.ok cfgDot3))).2 = none ∧
    ((loadConfig (.ok (.ok cfgDot3))).1.map
      (fun c => c.watcherConfig.YTDLWriteExt)) = some "" := by
  decide

/-- C7: after a successful load the stored extension equals the raw
`ytdl_write_ext` with exactly its maximal leading run of dots removed:
the raw value is some number of dots followed by the stored value, and
the stored value does not start with a dot. -/
theorem loadConfig_ext_normalized (c0 c : config)
    (h : loadConfig (.ok (.ok c0)) = (some c, none)) :
    c.watcherConfig.YTDLWriteExt = trimLeft c0.watcherConfig.YTDLWriteExt "." ∧
    (∃ k, c0.watcherConfig.YTDLWriteExt.data =
      List.replicate k '.' ++ c.watcherConfig.YTDLWriteExt.data) ∧
    c.watcherConfig.YTDLWriteExt.data.head? ≠ some '.' := by
  obtain ⟨c0x, hin, -, -, -, -, -, -, -, -, hc⟩ := loadConfig_ok_inv _ c h
  injection hin with hin2
  injection hin2 with hin3
  subst hin3
  subst hc
  refine ⟨rfl, ?_, ?_⟩
  · obtain ⟨t, hdec, hdot⟩ := trimLeft_decomp c0.watcherConfig.YTDLWriteExt "."
    refine ⟨t.length, ?_⟩
    have ht : t = List.replicate t.length '.' := by
      refine List.eq_replicate_of_mem (fun b hb => ?_)
      have hcont := hdot b hb
      rw [show (".").data = ['.'] from rfl] at hcont
      simpa using hcont
    rw [← ht]
    exact hdec
  · intro hhead
    exact absurd
      (trimLeft_no_leading c0.watcherConfig.YTDLWriteExt "." '.' hhead)
      (by decide)

/-- C6: on success every entry's epoch is the zero timestamp when its
epoch string is empty and the strict `YYYY-MM-DD` parse of the string
otherwise; a non-parsing epoch string on the first unprocessed entry
makes the whole load fail with that parse error; concretely,
"2020-01-15" parses to year 2020, month 1, day 15, and the empty string
yields the zero timestamp. -/
theorem loadConfig_epoch_parsing :
    (∀ (input : Except String (Except String config)) (c : config),
      loadConfig input = (some c, none) →
      ∀ p ∈ c.Podcasts,
        (p.EpochStr = "" → p.Epoch = zeroTimestamp) ∧
        (p.EpochStr ≠ "" → parseDate p.EpochStr = .ok p.Epoch)) ∧
    (∀ (c0 : config) (pre : List podcast) (p : podcast) (post : List podcast)
        (msg : String),
      c0.Podcasts = pre ++ p :: post →
      c0.Validate = [] →
      1 ≤ c0.watcherConfig.CheckIntervalMinutes →
      c0.watcherConfig.YTDLFmtSelector ≠ "" →
      c0.watcherConfig.YTDLWriteExt ≠ "" →
      c0.watcherConfig.ServeHost ≠ "" →
      c0.watcherConfig.ServePort ≠ 0 →
      (∀ q ∈ pre, entryOk q) →
      (pre.map podcast.ShortName).Nodup →
      parseEpochField p.EpochStr = .error msg →
      loadConfig (.ok (.ok c0)) = (none, some (.epochParse msg))) ∧
    parseDate "2020-01-15" = .ok ⟨2020, 1, 15⟩ ∧
    parseEpochField "" = .ok zeroTimestamp := by
  refine ⟨?_, ?_, by decide, rfl⟩
  · intro input c h p hp
    obtain ⟨c0, -, -, -, -, -, -, -, hok, -, hc⟩ := loadConfig_ok_inv input c h
    subst hc
    replace hp : p ∈ c0.Podcasts.map normalizePodcast := hp
    obtain ⟨q, hq, rfl⟩ := List.mem_map.1 hp
    obtain ⟨t, ht⟩ := (exceptIsOk_iff _).1 (hok q hq).1
    constructor
    · intro hes
      have hes2 : q.EpochStr = "" := hes
      show (normalizePodcast q).Epoch = zeroTimestamp
      simp [normalizePodcast, parseEpochField, hes2, exceptToOption]
    · intro hes
      have hne : q.EpochStr ≠ "" := hes
      have hpd : parseDate q.EpochStr = .ok t := by
        simpa [parseEpochField, hne] using ht
      show parseDate (normalizePodcast q).EpochStr = .ok (normalizePodcast q).Epoch
      simp [normalizePodcast, parseEpochField, hne, hpd, exceptToOption]
  · intro c0 pre p post msg hsplit hv h3 h4 h5 h6 h7 hok hnodup hperr
    rw [loadConfig_at_entry c0 pre (p :: post) hsplit hv h3 h4 h5 h6 h7 hok hnodup]
    simp [processPodcasts, hperr]

/-- C5: each entry's title filter is compiled from the pattern wrapped in
the case-insensitivity modifier `(?i:...)`; a pattern whose wrapped form
does not compile makes the load fail with that compile error, and on
success every entry holds the compiled wrapped pattern; the compiled
pattern for "cat" matches "CATalog" regardless of case and does not match
"dog". -/
theorem loadConfig_title_filter :
    (∀ (c0 : config) (pre : List podcast) (p : podcast) (post : List podcast)
        (msg : String),
      c0.Podcasts = pre ++ p :: post →
      c0.Validate = [] →
      1 ≤ c0.watcherConfig.CheckIntervalMinutes →
      c0.watcherConfig.YTDLFmtSelector ≠ "" →
      c0.watcherConfig.YTDLWriteExt ≠ "" →
      c0.watcherConfig.ServeHost ≠ "" →
      c0.watcherConfig.ServePort ≠ 0 →
      (∀ q ∈ pre, entryOk q) →
      (pre.map podcast.ShortName).Nodup →
      exceptIsOk (parseEpochField p.EpochStr) = true →
      compileRE (wrapCI p.TitleFilterStr) = .error msg →
      loadConfig (.ok (.ok c0)) = (none, some (.titleFilterCompile msg))) ∧
    (∀ (input : Except String (Except String config)) (c : config),
      loadConfig input = (some c, none) →
      ∀ p ∈ c.Podcasts, ∃ re, compileRE (wrapCI p.TitleFilterStr) = .ok re ∧
        p.TitleFilter = some re) ∧
    (∃ re, compileRE (wrapCI "cat") = .ok re ∧
      re.matchString "CATalog" = true ∧ re.matchString "catalog" = true ∧
      re.matchString "cAtAlOg" = true ∧ re.matchString "dog" = false) := by
  refine ⟨?_, ?_,
    ⟨.seq (.litCI 'c') (.seq (.litCI 'a') (.litCI 't')),
      by decide, by decide, by decide, by decide, by decide⟩⟩
  · intro c0 pre p post msg hsplit hv h3 h4 h5 h6 h7 hok hnodup hpok hcerr
    obtain ⟨t, ht⟩ := (exceptIsOk_iff _).1 hpok
    rw [loadConfig_at_entry c0 pre (p :: post) hsplit hv h3 h4 h5 h6 h7 hok hnodup]
    simp [processPodcasts, ht, hcerr]
  · intro input c h p hp
    obtain ⟨c0, -, -, -, -, -, -, -, hok, -, hc⟩ := loadConfig_ok_inv input c h
    subst hc
    replace hp : p ∈ c0.Podcasts.map normalizePodcast := hp
    obtain ⟨q, hq, rfl⟩ := List.mem_map.1 hp
    obtain ⟨re, hre⟩ := (exceptIsOk_iff _).1 (hok q hq).2
    refine ⟨re, hre, ?_⟩
    show (normalizePodcast q).TitleFilter = some re
    simp [normalizePodcast, hre, exceptToOption]

/-- C4: when two entries share a short name and everything up to and
including the first colliding entry processes cleanly, the load fails
with the duplicate-key error carrying that short name — whatever follows
the collision (the entries in `post` are unconstrained, so no entry after
the collision is normalized); and on success no two entries share a short
name. -/
theorem loadConfig_shortname_unique :
    (∀ (c0 : config) (pre : List podcast) (pdup : podcast) (post : List podcast),
      c0.Podcasts = pre ++ pdup :: post →
      c0.Validate = [] →
      1 ≤ c0.watcherConfig.CheckIntervalMinutes →
      c0.watcherConfig.YTDLFmtSelector ≠ "" →
      c0.watcherConfig.YTDLWriteExt ≠ "" →
      c0.watcherConfig.ServeHost ≠ "" →
      c0.watcherConfig.ServePort ≠ 0 →
      (∀ q ∈ pre, entryOk q) →
      entryOk pdup →
      (pre.map podcast.ShortName).Nodup →
      pdup.ShortName ∈ pre.map podcast.ShortName →
      loadConfig (.ok (.ok c0)) =
        (none, some (.duplicateShortName pdup.ShortName))) ∧
    (∀ (input : Except String (Except String config)) (c : config),
      loadConfig input = (some c, none) →
      (c.Podcasts.map podcast.ShortName).Nodup) := by
  constructor
  · intro c0 pre pdup post hsplit hv h3 h4 h5 h6 h7 hok hdok hnodup hdup
    obtain ⟨t, ht⟩ := (exceptIsOk_iff _).1 hdok.1
    obtain ⟨re, hre⟩ := (exceptIsOk_iff _).1 hdok.2
    rw [loadConfig_at_entry c0 pre (pdup :: post) hsplit hv h3 h4 h5 h6 h7
      hok hnodup]
    have hmem : pdup.ShortName ∈ (pre.map podcast.ShortName).reverse :=
      List.mem_reverse.2 hdup
    simp [processPodcasts, ht, hre, hmem]
  · intro input c h
    obtain ⟨c0, -, -, -, -, -, -, -, -, hnodup, hc⟩ := loadConfig_ok_inv input c h
    subst hc
    show ((c0.Podcasts.map normalizePodcast).map podcast.ShortName).Nodup
    rw [List.map_map]
    simpa [Function.comp, normalizePodcast_ShortName] using hnodup

/-- C1 (amended): for every decoded document with a non-empty API key, at
least three feeds, all sanity bounds met, a raw extension containing at
least one non-dot character (without this the extension invariant fails,
see the counterexample), compiling patterns, well-formed epoch strings
and pairwise-distinct short names, the load succeeds and every invariant
of spec section 3 holds on the result. -/
theorem loadConfig_valid_document (c0 : config)
    (h1 : c0.YTDataAPIKey ≠ "")
    (h2 : 3 ≤ c0.Podcasts.length)
    (h3 : 1 ≤ c0.watcherConfig.CheckIntervalMinutes)
    (h4 : c0.watcherConfig.YTDLFmtSelector ≠ "")
    (h5 : c0.watcherConfig.YTDLWriteExt ≠ "")
    (h5b : trimLeft c0.watcherConfig.YTDLWriteExt "." ≠ "")
    (h6 : c0.watcherConfig.ServeHost ≠ "")
    (h7 : c0.watcherConfig.ServePort ≠ 0)
    (h8 : ∀ p ∈ c0.Podcasts, entryOk p)
    (h9 : (c0.Podcasts.map podcast.ShortName).Nodup) :
    ∃ c, loadConfig (.ok (.ok c0)) = (some c, none) ∧ configInvariants c := by
  have hv : c0.Validate = [] := by
    simp [config.Validate, h1, not_lt.2 h2]
  have hload := loadConfig_at_entry c0 c0.Podcasts [] (by simp) hv h3 h4 h5 h6 h7
    h8 h9
  rw [show processPodcasts [] (c0.Podcasts.map podcast.ShortName).reverse =
    .ok [] from rfl] at hload
  simp only [List.append_nil] at hload
  refine ⟨_, hload, h1, ?_, h3, h4, h5b, h6, h7, ?_, ?_, ?_⟩
  · simpa [List.length_map] using h2
  · intro p hp
    replace hp : p ∈ c0.Podcasts.map normalizePodcast := hp
    obtain ⟨q, hq, rfl⟩ := List.mem_map.1 hp
    obtain ⟨re, hre⟩ := (exceptIsOk_iff _).1 (h8 q hq).2
    refine ⟨rfl, ?_⟩
    show (normalizePodcast q).TitleFilter ≠ none
    simp [normalizePodcast, hre, exceptToOption]
  · intro p hp hne
    replace hp : p ∈ c0.Podcasts.map normalizePodcast := hp
    obtain ⟨q, hq, rfl⟩ := List.mem_map.1 hp
    have hne2 : q.EpochStr ≠ "" := hne
    have := (h8 q hq).1
    simpa [parseEpochField, hne2] using this
  · show ((c0.Podcasts.map normalizePodcast).map podcast.ShortName).Nodup
    rw [List.map_map]
    simpa [Function.comp, normalizePodcast_ShortName] using h9

/-- C1 counterexample: `cfgDot3` satisfies every hypothesis of the claim
(its raw extension "." is non-empty), loads successfully, and the loaded
configuration violates the invariants of spec section 3 (its normalized
extension is empty). -/
theorem loadConfig_valid_document_counterexample :
    cfgDot3.YTDataAPIKey ≠ "" ∧ 3 ≤ cfgDot3.Podcasts.length ∧
    1 ≤ cfgDot3.watcherConfig.CheckIntervalMinutes ∧
    cfgDot3.watcherConfig.YTDLFmtSelector ≠ "" ∧
    cfgDot3.watcherConfig.YTDLWriteExt ≠ "" ∧
    cfgDot3.watcherConfig.ServeHost ≠ "" ∧
    cfgDot3.watcherConfig.ServePort ≠ 0 ∧
    (∀ p ∈ cfgDot3.Podcasts, entryOk p) ∧
    (cfgDot3.Podcasts.map podcast.ShortName).Nodup ∧
    ((loadConfig (.ok (.ok cfgDot3))).1.map
      (fun c => decide (configInvariants c))) = some false := by
  decide

/-- C9 (amended): a decoded document with a non-empty API key and a
non-empty feed list of fewer than three entries fails during structural
validation with the error naming the feeds field — whatever the values of
every other field, so neither the sanity checks nor any per-entry
normalization runs.  (With an empty feed list the length rule is skipped,
see the counterexample.) -/
theorem loadConfig_min_feed_count (c0 : config)
    (h1 : c0.YTDataAPIKey ≠ "") (h2 : c0.Podcasts ≠ [])
    (h3 : c0.Podcasts.length < 3) :
    loadConfig (.ok (.ok c0)) = (none, some (.validation [VField.podcasts])) := by
  have hv : c0.Validate = [VField.podcasts] := by
    simp [config.Validate, h1, h2, h3]
  simp [loadConfig, hv]

/-- C9 counterexample: `cfgZero` has a non-empty API key and an empty
feed list (length 0 < 3), yet the load succeeds rather than failing
validation — the declarative length rule skips empty values. -/
theorem loadConfig_min_feed_count_counterexample :
    cfgZero.YTDataAPIKey ≠ "" ∧ cfgZero.Podcasts.length < 3 ∧
    (loadConfig (.ok (.ok cfgZero))).2 = none ∧
    (loadConfig (.ok (.ok cfgZero))).1.isSome = true := by
  decide

/-- C10: the document `cfgEmptySN`, valid in every other respect (three
feeds, distinct short names, compiling patterns, well-formed epochs),
has exactly one feed whose short name is the empty string; it loads
successfully and the result contains a feed keyed by the empty string. -/
theorem loadConfig_accepts_empty_shortname :
    cfgEmptySN.Podcasts.map podcast.ShortName = ["", "a", "b"] ∧
    cfgEmptySN.YTDataAPIKey ≠ "" ∧ 3 ≤ cfgEmptySN.Podcasts.length ∧
    (loadConfig (.ok (.ok cfgEmptySN))).2 = none ∧
    ((loadConfig (.ok (.ok cfgEmptySN))).1.map
      (fun c => c.Podcasts.map podcast.ShortName)) = some ["", "a", "b"] := by
  decide

/-! ### Witnesses: the claim theorems applied at concrete documents -/

/-- C1 witness: the fully valid document `cfgOK` satisfies every
hypothesis and indeed loads successfully. -/
theorem loadConfig_valid_document_witness :
    (loadConfig (.ok (.ok cfgOK))).2 = none ∧
    (loadConfig (.ok (.ok cfgOK))).1.isSome = true := by
  obtain ⟨c, hc, -⟩ := loadConfig_valid_document cfgOK (by decide) (by decide)
    (by decide) (by decide) (by decide) (by decide) (by decide) (by decide)
    (by decide) (by decide)
  rw [hc]
  exact ⟨rfl, rfl⟩

/-- C2 witness: the configuration loaded from `cfgOK` satisfies the
amended watch-policy invariants. -/
theorem loadConfig_watch_policy_witness :
    1 ≤ loadedOK.watcherConfig.CheckIntervalMinutes ∧
    loadedOK.watcherConfig.YTDLFmtSelector ≠ "" ∧
    loadedOK.watcherConfig.ServeHost ≠ "" ∧
    loadedOK.watcherConfig.ServePort ≠ 0 ∧
    loadedOK.watcherConfig.YTDLWriteExt.data.head? ≠ some '.' :=
  loadConfig_watch_policy (.ok (.ok cfgOK)) loadedOK (by decide)

/-- C4 witness: `cfgDup` fails with the duplicate-key error for "foo",
although its third entry (after the collision) has an invalid pattern and
an invalid date. -/
theorem loadConfig_shortname_unique_witness :
    loadConfig (.ok (.ok cfgDup)) = (none, some (.duplicateShortName "foo")) :=
  loadConfig_shortname_unique.1 cfgDup [mkPod "foo" "" ""] (mkPod "foo" "" "")
    [mkPod "x" "(" "9999-99-99"] rfl (by decide) (by decide) (by decide)
    (by decide) (by decide) (by decide) (by decide) (by decide) (by decide)
    (by decide)

/-- C5 witness: `cfgBadPat`, whose second entry's pattern "(" wraps to a
non-compiling expression, fails with the compile error. -/
theorem loadConfig_title_filter_witness :
    loadConfig (.ok (.ok cfgBadPat)) =
      (none, some (.titleFilterCompile "missing closing )")) :=
  loadConfig_title_filter.1 cfgBadPat [mkPod "a" "" ""] (mkPod "b" "(" "")
    [mkPod "c" "" ""] "missing closing )" rfl (by decide) (by decide)
    (by decide) (by decide) (by decide) (by decide) (by decide) (by decide)
    (by decide) (by decide)

/-- C6 witness: `cfgBadDate`, whose second entry's epoch "2020-13-01" is
not a well-formed date, fails with the parse error. -/
theorem loadConfig_epoch_parsing_witness :
    loadConfig (.ok (.ok cfgBadDate)) =
      (none, some (.epochParse (dateErr "2020-13-01" "month out of range"))) :=
  loadConfig_epoch_parsing.2.1 cfgBadDate [mkPod "a" "" ""]
    (mkPod "b" "" "2020-13-01") [mkPod "c" "(" ""]
    (dateErr "2020-13-01" "month out of range") rfl (by decide) (by decide)
    (by decide) (by decide) (by decide) (by decide) (by decide) (by decide)
    (by decide)

/-- C7 witness: loading `cfgOK`, whose raw extension is ".m4a",
normalizes the extension to "m4a". -/
theorem loadConfig_ext_normalized_witness :
    loadedOK.watcherConfig.YTDLWriteExt =
      trimLeft cfgOK.watcherConfig.YTDLWriteExt "." ∧
    loadedOK.watcherConfig.YTDLWriteExt = "m4a" :=
  ⟨(loadConfig_ext_normalized cfgOK loadedOK (by decide)).1, by decide⟩

/-- C9 witness: `cfgTwo` (two feeds, and a zero check interval that the
sanity stage would reject) fails with the validation error on the feeds
field, showing validation precedes the sanity checks. -/
theorem loadConfig_min_feed_count_witness :
    loadConfig (.ok (.ok cfgTwo)) = (none, some (.validation [VField.podcasts])) :=
  loadConfig_min_feed_count cfgTwo (by decide) (by decide) (by decide)
